import Mathlib

set_option autoImplicit false

/-! Verification of the stop consolidation engine
(`src/static/converter/stophandler.py` of przemekwrona/WarsawGTFS).

Modelling conventions.  Python `dict`s are insertion-ordered association
lists (`List (String × α)`); `set`s are duplicate-free lists (insertion
keeps the first occurrence); geographic coordinates (Python `float`) are
exact rationals `ℚ` — none of the verified properties depends on
floating-point rounding, and every concrete input used below is exactly
representable; in-place mutation is explicit state passing: every method
of `StopHandler` takes the handler state and returns the updated state.
Fallible code (`TypeError` from `sum` over a `None`, `IndexError` from
indexing) returns `Except String`.  Logging is a pure observational
effect and is not modelled; the branch structure around each log call is
kept. -/

namespace WarsawGTFS

/-- Python `str.replace` on character lists: replaces all non-overlapping
occurrences of `pat` left to right.  The first argument is fuel, always
called with the length of the haystack (enough, as every step consumes at
least one character). -/
def replFuel (pat rep : List Char) : Nat → List Char → List Char
  | 0, l => l
  | _ + 1, [] => []
  | n + 1, a :: l =>
    if !pat.isEmpty && pat.isPrefixOf (a :: l) then
      rep ++ replFuel pat rep n ((a :: l).drop pat.length)
    else
      a :: replFuel pat rep n l

/-- Python `s.replace(pat, rep)` (all patterns used by the source are
non-empty, so the empty-pattern case is irrelevant). -/
def pyReplace (s pat rep : String) : String :=
  ⟨replFuel pat.data rep.data s.data.length s.data⟩

/-- Python `s.rstrip()`: strip trailing whitespace. -/
def pyRstrip (s : String) : String :=
  ⟨(s.data.reverse.dropWhile Char.isWhitespace).reverse⟩

/-- Python `s.casefold()` / `s.lower()`, restricted to ASCII case mapping
(the verified properties do not depend on non-ASCII case folding). -/
def pyLower (s : String) : String :=
  ⟨s.data.map Char.toLower⟩

/-- Substring test on character lists. -/
def containsSub (needle : List Char) : List Char → Bool
  | [] => needle.isEmpty
  | a :: t => needle.isPrefixOf (a :: t) || containsSub needle t

/-- Python substring test `needle in hay`. -/
def strIn (needle hay : String) : Bool :=
  containsSub needle.data hay.data

/-- Python `s[a:b]` for `0 ≤ a ≤ b`. -/
def pySlice (s : String) (a b : Nat) : String :=
  ⟨(s.data.drop a).take (b - a)⟩

/-- Python `s[:b]`. -/
def pyTake (s : String) (b : Nat) : String :=
  ⟨s.data.take b⟩

/-- Character at index `n` (Python `s[n]`; `none` when out of range, where
Python would raise — the source only ever indexes the 2-character stake
codes, which external data always provides). -/
def charAt? (s : String) (n : Nat) : Option Char :=
  s.data.get? n

/-- Helper splitting a character list on a single character. -/
def splitOnCharAux (c : Char) : List Char → List Char → List (List Char)
  | [], acc => [acc.reverse]
  | a :: l, acc =>
    if a == c then acc.reverse :: splitOnCharAux c l []
    else splitOnCharAux c l (a :: acc)

/-- Python `s.split(sep)` for a one-character separator (the source only
splits on `" "` and `"p"`). -/
def pySplit (c : Char) (s : String) : List String :=
  (splitOnCharAux c s.data []).map (fun l => ⟨l⟩)

/-- Python `dict` lookup `m.get(k)` (first binding wins; dictionaries never
hold a key twice). -/
def dget? {α : Type} : List (String × α) → String → Option α
  | [], _ => none
  | p :: m, k => if p.1 == k then some p.2 else dget? m k

/-- Python `dict` update `m[k] = v`: overwrite the binding of `k` in place,
else append (dictionaries preserve insertion order). -/
def dset {α : Type} : List (String × α) → String → α → List (String × α)
  | [], k, v => [(k, v)]
  | p :: m, k, v => if p.1 == k then (k, v) :: m else p :: dset m k v

/-- Python `set.add` on a set modelled as a duplicate-free list. -/
def sadd (s : List String) (x : String) : List String :=
  if s.contains x then s else s ++ [x]

/-- Insertion into a sorted list of strings, for Python `sorted`. -/
def insertSorted (x : String) : List String → List String
  | [] => [x]
  | y :: l => if x ≤ y then x :: y :: l else y :: insertSorted x l

/-- Python `sorted` on a list of strings. -/
def pySorted (l : List String) : List String :=
  l.foldr insertSorted []

/-- Modelled from the spec: `ZTMStop` is imported from `..parser.dataobj`,
which is not under `src/`.  Spec §3: a stake has an identifier, a
2-character code whose first character `8` marks a virtual stake, optional
latitude/longitude (absent = unknown position), and a
wheelchair-accessibility flag. -/
structure ZTMStop where
  id : String
  code : String
  lat : Option ℚ
  lon : Option ℚ
  wheelchair : String
deriving DecidableEq, Repr

/-- Modelled from the spec: `ZTMStopGroup` is imported from
`..parser.dataobj`, which is not under `src/`.  Spec §3: a group has an
identifier (encoding a district/type prefix), a human name, a locality
(town) name and a locality code (`"--"` denotes the capital's own stops). -/
structure ZTMStopGroup where
  id : String
  name : String
  town : String
  town_code : String
deriving DecidableEq, Repr

/-- One record of the rail-platforms gist (external JSON, spec §6).  The
source parses `station_data["pos"]` and each platform position with
`map(float, ….split(","))`; the embedding stores the already-parsed pairs
(decoding of well-formed external JSON is not at issue in any verified
property).  Fields read with `dict.get` and a default are `Option`s
(`none` = key absent). -/
structure RailPlatformRec where
  name : String
  pos : ℚ × ℚ
  oneplatform : Bool
  zone_id : Option String
  ibnr_code : Option String
  pkpplk_code : Option String
  wheelchair : Option String
  platforms : List (String × (ℚ × ℚ))
  stops : List (String × String)
deriving DecidableEq, Repr

/-- A value of `StopHandler.data`: in the source a string-keyed `dict`
whose key set varies with the kind of stop.  Keys absent for some kinds
are `Option`s (`none` = key absent, matching `dict.get` returning `None`;
`some ""` is a present empty-string value, which the source treats as
falsy where relevant). -/
structure StopData where
  stop_id : String
  stop_name : String
  stop_lat : ℚ
  stop_lon : ℚ
  wheelchair_boarding : String
  zone_id : Option String := none
  stop_IBNR : Option String := none
  stop_PKPPLK : Option String := none
  location_type : Option String := none
  parent_station : Option String := none
deriving DecidableEq, Repr

/-- The mutable state of `StopHandler` (constructor lines 89–109).  The
two external gist datasets (`missing_stops`, `rail_platforms`) are fetched
once at construction and read-only afterwards; they are plain fields
here. -/
structure StopHandler where
  names : List (String × String)
  data : List (String × StopData)
  parents : List (String × String)
  zones : List (String × String)
  invalid : List (String × ZTMStop)
  change : List (String × Option String)
  used_invalid : List String
  used : List String
  missing_stops : List (String × (ℚ × ℚ))
  rail_platforms : List (String × RailPlatformRec)
deriving DecidableEq, Repr

/-- Python `valid_id in self.invalid`: key membership in the `invalid`
dictionary. -/
def invalidMem (h : StopHandler) (v : String) : Bool :=
  h.invalid.any (fun p => p.1 == v)

/-- Source `normalize_stop_name` (lines 23–39): fixed ordered sequence of
text substitutions, then `rstrip`. -/
def normalize_stop_name (name : String) : String :=
  pyRstrip
    (pyReplace
      (pyReplace
        (pyReplace
          (pyReplace
            (pyReplace
              (pyReplace
                (pyReplace
                  (pyReplace
                    (pyReplace
                      (pyReplace
                        (pyReplace name (".") (". "))
                        ("-") (" - "))
                      ("  ") (" "))
                    ("al.") ("Al."))
                  ("pl.") ("Pl."))
                ("os.") ("Os."))
              ("ks.") ("Ks."))
            ("Ak ") ("AK "))
          ("Ch ") ("CH "))
        ("gen.") ("Gen."))
      ("rondo ") ("Rondo "))

/-- Source `should_town_be_added_to_name` (lines 42–57): true iff every
"don't add" condition fails.  Python's `casefold` is modelled by ASCII
lowercasing. -/
def should_town_be_added_to_name (g : ZTMStopGroup) : Bool :=
  let dont_add : List (ZTMStopGroup → Bool) :=
    [ fun g => g.town_code == "--"
    , fun g => ["90", "91", "92"].contains (pySlice g.id 1 3)
    , fun g => strIn ("PKP") g.name
    , fun g => strIn ("WKD") g.name
    , fun g => strIn (pyLower g.town) (pyLower g.name)
    , fun g => (pySplit (' ') (pyLower g.town)).any
        (fun part => strIn part (pyLower g.name)) ]
  !(dont_add.any (fun rule => rule g))

/-- Python `sum` over a list of optional numbers: adding a `None` raises
`TypeError`; the empty sum is `0`. -/
def pysum (xs : List (Option ℚ)) : Except String ℚ :=
  xs.foldl
    (fun acc x =>
      match acc, x with
      | .ok a, some v => .ok (a + v)
      | .ok _, none => .error ("TypeError")
      | .error e, _ => .error e)
    (.ok 0)

/-- Source `avg_position` (lines 60–69).  Note two peculiarities kept
verbatim from the source: both coordinate generators filter on
`i.lon is not None` only, and the divisor is `len(stops)` — the number of
all stakes, defined position or not. -/
def avg_position (stops : List ZTMStop) : Except String (Option (ℚ × ℚ)) :=
  let lats := (stops.filter (fun i => i.lon.isSome)).map (fun i => i.lat)
  let lons := (stops.filter (fun i => i.lon.isSome)).map (fun i => i.lon)
  let count : ℚ := stops.length
  if stops.length < 1 then
    .ok none
  else
    match pysum lats, pysum lons with
    | .ok sl, .ok sn => .ok (some (sl / count, sn / count))
    | .error e, _ => .error e
    | _, .error e => .error e

/-- Source `_match_virtual`, the `with_same_pos` list (lines 120–125):
ids of physical siblings sharing the virtual stake's exact position
(empty when the virtual stake's position is undefined). -/
def with_same_pos (virt : ZTMStop) (stakes : List ZTMStop) : List String :=
  if virt.lat.isSome && virt.lon.isSome then
    (stakes.filter (fun i =>
      charAt? i.code 0 != some '8' && i.lat == virt.lat && i.lon == virt.lon)).map
      (fun i => i.id)
  else []

/-- Source `_match_virtual`, the `with_same_code` list (lines 127–129):
ids of physical siblings whose code's second character matches the
virtual stake's. -/
def with_same_code (virt : ZTMStop) (stakes : List ZTMStop) : List String :=
  (stakes.filter (fun i =>
    charAt? i.code 0 != some '8' && charAt? i.code 1 == charAt? virt.code 1)).map
    (fun i => i.id)

/-- Source `StopHandler._match_virtual` (lines 117–145): hard-coded
Metro Młociny special case first, then first position match, then first
code match, else no target. -/
def _match_virtual (virt : ZTMStop) (stakes : List ZTMStop) : Option String :=
  if virt.id == "605988" && (with_same_code virt stakes).contains "605928" then
    some ("605928")
  else
    match with_same_pos virt stakes, with_same_code virt stakes with
    | x :: _, _ => some x
    | [], y :: _ => some y
    | [], [] => none

/-- One step of `StopHandler._find_missing_positions` (lines 147–155):
fill an undefined position from the missing-stops gist (a fetched
`(lat, lon)` pair is always truthy). -/
def fill_missing (missing : List (String × (ℚ × ℚ))) (stop : ZTMStop) : ZTMStop :=
  if stop.lat.isNone || stop.lon.isNone then
    match dget? missing stop.id with
    | some (la, lo) => { stop with lat := some la, lon := some lo }
    | none => stop
  else stop

/-- Source `StopHandler._find_missing_positions` (lines 147–155); the
in-place `stops[idx]` assignments become an elementwise map. -/
def _find_missing_positions (missing : List (String × (ℚ × ℚ)))
    (stops : List ZTMStop) : List ZTMStop :=
  stops.map (fill_missing missing)

/-- Source `StopHandler._load_normal_group` (lines 157–185): virtual
stakes get aliased or invalidated, position-less physical stakes get
invalidated, the rest become exported stop records. -/
def _load_normal_group (h : StopHandler) (group_name : String)
    (stops : List ZTMStop) : StopHandler :=
  stops.foldl
    (fun h stop =>
      if charAt? stop.code 0 == some '8' then
        match _match_virtual stop stops with
        | some change_to => { h with change := dset h.change stop.id (some change_to) }
        | none => { h with invalid := dset h.invalid stop.id stop }
      else
        match stop.lat, stop.lon with
        | some la, some lo =>
          { h with data := dset h.data stop.id (StopData.mk stop.id
              (group_name ++ " " ++ stop.code) la lo stop.wheelchair
              none none none none none) }
        | _, _ => { h with invalid := dset h.invalid stop.id stop } )
    h

/-- Python `station_data.get(key, default)` where `station_data` is either
absent (`{}`) or a gist record with optional fields. -/
def sdGet (sd : Option RailPlatformRec) (f : RailPlatformRec → Option String)
    (dflt : String) : String :=
  match sd with
  | none => dflt
  | some r => (f r).getD dflt

/-- The single-node station record built by `_load_railway_group`
(lines 220–229): used both when the station has no gist metadata and when
the metadata marks it single-platform. -/
def railStationEntry (sd : Option RailPlatformRec) (group_id group_name : String)
    (station_lat station_lon : ℚ) : StopData :=
  { stop_id := group_id
    stop_name := group_name
    stop_lat := station_lat
    stop_lon := station_lon
    zone_id := some (sdGet sd (fun r => r.zone_id) (""))
    stop_IBNR := some (sdGet sd (fun r => r.ibnr_code) (""))
    stop_PKPPLK := some (sdGet sd (fun r => r.pkpplk_code) (""))
    wheelchair_boarding := sdGet sd (fun r => r.wheelchair) ("0") }

/-- The hub record of a multi-platform station (lines 237–248). -/
def railHubEntry (sd : RailPlatformRec) (group_id group_name : String)
    (station_lat station_lon : ℚ) : StopData :=
  { stop_id := group_id
    stop_name := group_name
    stop_lat := station_lat
    stop_lon := station_lon
    location_type := some ("1")
    parent_station := some ("")
    zone_id := some (sdGet (some sd) (fun r => r.zone_id) (""))
    stop_IBNR := some (sdGet (some sd) (fun r => r.ibnr_code) (""))
    stop_PKPPLK := some (sdGet (some sd) (fun r => r.pkpplk_code) (""))
    wheelchair_boarding := sdGet (some sd) (fun r => r.wheelchair) ("0") }

/-- Alias every stake of the group to `target` (the
`for i in virt_stops: self.change[i.id] = target` loops of
`_load_railway_group`). -/
def changeAll (h : StopHandler) (virt_stops : List ZTMStop)
    (target : Option String) : StopHandler :=
  virt_stops.foldl (fun h i => { h with change := dset h.change i.id target }) h

/-- The platform loop of `_load_railway_group` (lines 251–271): one child
record per declared platform, registered in `parents`.  Python indexes
`platform_id.split("p")[1]`, raising `IndexError` when the platform id
holds no `"p"`. -/
def railPlatformsFold (sd : RailPlatformRec) (group_id group_name : String) :
    StopHandler → List (String × (ℚ × ℚ)) → Except String StopHandler
  | h, [] => .ok h
  | h, (platform_id, (pla, plo)) :: rest =>
    match (pySplit ('p') platform_id).get? 1 with
    | none => .error ("IndexError")
    | some platform_code =>
      railPlatformsFold sd group_id group_name
        { h with
          data := dset h.data platform_id
            { stop_id := platform_id
              stop_name := group_name ++ " peron " ++ platform_code
              stop_lat := pla
              stop_lon := plo
              location_type := some ("0")
              parent_station := some group_id
              zone_id := some (sdGet (some sd) (fun r => r.zone_id) (""))
              stop_IBNR := some (sdGet (some sd) (fun r => r.ibnr_code) (""))
              stop_PKPPLK := some (sdGet (some sd) (fun r => r.pkpplk_code) (""))
              wheelchair_boarding := sdGet (some sd) (fun r => r.wheelchair) ("0") }
          parents := dset h.parents platform_id group_id }
        rest

/-- The stake-to-platform loop of `_load_railway_group` (lines 274–284):
stakes declared in the gist get aliased to their platform; unknown stakes
only produce a warning (two known ids exempted) and are left untouched. -/
def railStakesToPlatforms (sd : RailPlatformRec) (h : StopHandler)
    (virt_stops : List ZTMStop) : StopHandler :=
  virt_stops.foldl
    (fun h stop =>
      match dget? sd.stops stop.id with
      | some pid => { h with change := dset h.change stop.id (some pid) }
      | none => h)
    h

/-- Source `StopHandler._load_railway_group` (lines 187–284).  Modelled
from the spec: `ACTIVE_RAIL_STATIONS` is imported from `..const`, which is
not under `src/`; spec §4.3 describes it as the allowlist of active
railway stations, so it is threaded as the explicit parameter `active`. -/
def _load_railway_group (active : List String) (h : StopHandler)
    (group_id group_name : String) (virt_stops : List ZTMStop) :
    Except String StopHandler :=
  if !(active.contains group_id) then
    .ok (changeAll h virt_stops none)
  else
    match dget? h.rail_platforms group_id with
    | none =>
      -- Station absent from rail_platforms: average all stake positions
      match avg_position virt_stops with
      | .error e => .error e
      | .ok none => .ok (changeAll h virt_stops none)
      | .ok (some (station_lat, station_lon)) =>
        -- `(not station_data) or station_data["oneplatform"]`: single node
        let entry := railStationEntry none group_id group_name station_lat station_lon
        .ok (changeAll { h with data := dset h.data group_id entry }
          virt_stops (some group_id))
    | some sd =>
      let station_lat := sd.pos.1
      let station_lon := sd.pos.2
      let group_name := sd.name
      if sd.oneplatform then
        let entry := railStationEntry (some sd) group_id group_name station_lat station_lon
        .ok (changeAll { h with data := dset h.data group_id entry }
          virt_stops (some group_id))
      else
        let hub := railHubEntry sd group_id group_name station_lat station_lon
        match railPlatformsFold sd group_id group_name
            { h with data := dset h.data group_id hub } sd.platforms with
        | .error e => .error e
        | .ok h => .ok (railStakesToPlatforms sd h virt_stops)

/-- The name-resolution prelude of `load_group` (lines 288–304): the
"Kampinoski Pn" town fixup, name normalization, then the walrus test
`if (fixed_name := self.names.get(group.id)):` — a stored empty string is
falsy, like an absent key — and the town-prefixing decision.  Returns the
updated handler (its `names` map) and the mutated group. -/
def resolveGroupName (h : StopHandler) (group : ZTMStopGroup) :
    StopHandler × ZTMStopGroup :=
  let group :=
    if group.town == "Kampinoski Pn" then { group with town := "Kampinoski PN" }
    else group
  let group := { group with name := normalize_stop_name group.name }
  match dget? h.names group.id with
  | some fixed_name =>
    if fixed_name != "" then (h, { group with name := fixed_name })
    else if should_town_be_added_to_name group then
      let n := group.town ++ " " ++ group.name
      ({ h with names := dset h.names group.id n }, { group with name := n })
    else
      ({ h with names := dset h.names group.id group.name }, group)
  | none =>
    if should_town_be_added_to_name group then
      let n := group.town ++ " " ++ group.name
      ({ h with names := dset h.names group.id n }, { group with name := n })
    else
      ({ h with names := dset h.names group.id group.name }, group)

/-- Source `StopHandler.load_group` (lines 286–314).  The in-place
mutation of the caller's `group` and `stops` arguments is modelled by
returning them alongside the handler; a railway-branch exception leaves
the already-performed argument mutations visible, exactly as in Python,
so the `Except` wraps only the handler. -/
def load_group (active : List String) (h : StopHandler) (group : ZTMStopGroup)
    (stops : List ZTMStop) :
    (Except String StopHandler) × ZTMStopGroup × List ZTMStop :=
  let hg := resolveGroupName h group
  let stops := _find_missing_positions hg.1.missing_stops stops
  if ["90", "91", "92"].contains (pySlice hg.2.id 1 3) then
    (_load_railway_group active hg.1 hg.2.id hg.2.name stops, hg.2, stops)
  else
    (.ok (_load_normal_group hg.1 hg.2.name stops), hg.2, stops)

/-- Source `StopHandler.get_id` (lines 316–334).  The branch structure is
kept verbatim: the first test `valid_id is None or valid_id in
self.invalid` subsumes the following `elif valid_id in self.invalid`
branch, so the `used_invalid.add` statement is unreachable. -/
def get_id : StopHandler → Option String → StopHandler × Option String
  | h, none => (h, none)
  | h, some oid =>
    match (dget? h.change oid).getD (some oid) with
    | none => (h, none)
    | some v =>
      if invalidMem h v then (h, none)
      else if invalidMem h v then
        ({ h with used_invalid := sadd h.used_invalid v }, none)
      else (h, some v)

/-- Source `StopHandler.use` (lines 336–345): mark a stop id as used, and
its registered parent first, if any. -/
def use (h : StopHandler) (stop_id : String) : StopHandler :=
  let h :=
    match dget? h.parents stop_id with
    | some parent_id => { h with used := sadd h.used parent_id }
    | none => h
  { h with used := sadd h.used stop_id }

/-- Source `StopHandler.zone_set` (lines 347–368).  The source first tests
`current_zone == zone_id` and then `current_zone is None`; since Python's
`None == zone_id` is `False` for a string `zone_id`, testing for the
absent key first is equivalent.  The conflict branch logs a warning and
stores the boundary sentinel, exactly like the boundary branch. -/
def zone_set (h : StopHandler) (group_id zone_id : String) : StopHandler :=
  match dget? h.zones group_id with
  | none => { h with zones := dset h.zones group_id zone_id }
  | some current_zone =>
    if current_zone == zone_id then h
    else if current_zone == "1/2" || zone_id == "1/2" then
      { h with zones := dset h.zones group_id ("1/2") }
    else
      -- zone conflict: warning logged, then the boundary sentinel is stored
      { h with zones := dset h.zones group_id ("1/2") }

/-- The export filter of `StopHandler.export` (lines 378–381): a record is
written iff its id is used, or its `parent_station` value is used and its
`location_type` is not `"1"` (`dict.get` returns `None` for absent keys,
and `None in self.used` is `False`, `None != "1"` is `True`). -/
def exportCond (h : StopHandler) (stop_id : String) (sd : StopData) : Bool :=
  h.used.contains stop_id ||
    ((match sd.parent_station with
      | some p => h.used.contains p
      | none => false) &&
     sd.location_type != some "1")

/-- The zone fill-in of `StopHandler.export` (lines 383–393): a missing or
empty `zone_id` is replaced by the zone stored for the record's 4-character
group key, defaulting to the boundary sentinel `"1/2"` (with a warning). -/
def fillZone (h : StopHandler) (stop_id : String) (sd : StopData) : StopData :=
  if sd.zone_id == none || sd.zone_id == some "" then
    { sd with zone_id := some ((dget? h.zones (pyTake stop_id 4)).getD ("1/2")) }
  else sd

/-- The rows written to `stops.txt` by `StopHandler.export`
(lines 370–395), in registry iteration order. -/
def exportRows (h : StopHandler) : List StopData :=
  (h.data.filter (fun p => exportCond h p.1 p.2)).map (fun p => fillZone h p.1 p.2)

/-- The content of `missing_stops.json` written by `StopHandler.export`
(lines 397–407): the consumed fallback positions (`used_invalid`, sorted)
and the fetched-but-unconsumed ones (sorted). -/
def missingStopsReport (h : StopHandler) : List String × List String :=
  ( pySorted h.used_invalid
  , pySorted ((h.missing_stops.map (fun p => p.1)).filter
      (fun k => !h.used_invalid.contains k)) )

deriving instance DecidableEq for Except

/-- A `StopHandler` whose registry is empty: the state right after
construction, with both external gists empty. -/
def emptyHandler : StopHandler := ⟨[], [], [], [], [], [], [], [], [], []⟩

theorem dget?_dset_self {α : Type} (m : List (String × α)) (k : String) (v : α) :
    dget? (dset m k v) k = some v := by
  induction m with
  | nil => simp [dget?, dset]
  | cons p m ih =>
    by_cases hp : p.1 == k
    · simp [dset, hp, dget?]
    · simp [dset, hp, dget?, ih]

theorem zone_set_of_none (h : StopHandler) (g z : String)
    (h0 : dget? h.zones g = none) :
    zone_set h g z = { h with zones := dset h.zones g z } := by
  unfold zone_set; rw [h0]

/-- Stored zone after two `zone_set` calls on a previously unassigned
key: the zone itself when both calls agree, else the boundary sentinel. -/
theorem zone_after_two (h : StopHandler) (g z1 z2 : String)
    (h0 : dget? h.zones g = none) :
    dget? (zone_set (zone_set h g z1) g z2).zones g =
      if z1 = z2 then some z1 else some ("1/2") := by
  rw [zone_set_of_none h g z1 h0]
  unfold zone_set
  simp only [dget?_dset_self]
  by_cases hz : z1 = z2
  · simp [hz, dget?_dset_self]
  · have hne : (z1 == z2) = false := by simp [hz]
    simp only [hne, Bool.false_eq_true, if_false]
    by_cases hb : (z1 == "1/2" || z2 == "1/2") = true <;>
      simp [hb, dget?_dset_self, hz]

/-- C6: starting from a state where the group key has no stored zone, the
final stored zone after two `zone_set` calls is independent of their
order: assigning the same zone twice (in either order) leaves that zone
stored, and assigning two different non-boundary zones (in either order)
leaves the boundary sentinel `"1/2"` stored. -/
theorem zone_set_two_calls_order_independent (h : StopHandler) (g z1 z2 : String)
    (h0 : dget? h.zones g = none) :
    dget? (zone_set (zone_set h g z1) g z2).zones g =
      dget? (zone_set (zone_set h g z2) g z1).zones g ∧
    (z1 = z2 → dget? (zone_set (zone_set h g z1) g z2).zones g = some z1) ∧
    (z1 ≠ z2 → z1 ≠ "1/2" → z2 ≠ "1/2" →
      dget? (zone_set (zone_set h g z1) g z2).zones g = some ("1/2")) := by
  refine ⟨?_, ?_, ?_⟩
  · rw [zone_after_two h g z1 z2 h0, zone_after_two h g z2 z1 h0]
    by_cases hz : z1 = z2
    · simp [hz]
    · simp [hz, Ne.symm hz]
  · intro hz; rw [zone_after_two h g z1 z2 h0]; simp [hz]
  · intro hz _ _; rw [zone_after_two h g z1 z2 h0]; simp [hz]

theorem zone_set_two_calls_order_independent_witness :
    dget? (zone_set (zone_set emptyHandler ("1234") ("A")) ("1234") ("B")).zones
      ("1234") = some ("1/2") :=
  (zone_set_two_calls_order_independent emptyHandler ("1234") ("A") ("B")
    (by decide)).2.2 (by decide) (by decide) (by decide)

/-- C7: once a group's stored zone is the boundary sentinel `"1/2"`,
every subsequent `zone_set` call on that key, with any zone label, leaves
the stored zone equal to `"1/2"`. -/
theorem zone_set_boundary_never_reverts (h : StopHandler) (g z : String)
    (hb : dget? h.zones g = some ("1/2")) :
    dget? (zone_set h g z).zones g = some ("1/2") := by
  unfold zone_set
  rw [hb]
  by_cases hz : z = "1/2"
  · subst hz; simp [hb]
  · have hne : (("1/2" : String) == z) = false := by simp [Ne.symm hz]
    simp [hne, dget?_dset_self]

theorem zone_set_boundary_never_reverts_witness :
    dget? (zone_set { emptyHandler with zones := [(("1234"), ("1/2"))] }
      ("1234") ("A")).zones ("1234") = some ("1/2") :=
  zone_set_boundary_never_reverts
    { emptyHandler with zones := [(("1234"), ("1/2"))] } ("1234") ("A") (by decide)

/-- C1 counterexample: in the empty registry the id `"999999"` was never
registered (not an alias key, not an exported stop, not invalid), yet
`get_id` returns it unchanged instead of `none`. -/
theorem get_id_unregistered_counterexample :
    (get_id emptyHandler (some ("999999"))).2 = some ("999999") ∧
    (get_id emptyHandler (some ("999999"))).2 ≠ none := by decide

/-- C1 (amended): for every raw id that was never registered in the
registry, `get_id` returns the id unchanged — not `none` — and never
raises (the embedding is a total function, and the state is untouched);
`none` is returned only when the alias target is the "no valid target"
sentinel or the resolved id lies in the invalid set. -/
theorem get_id_unregistered_returns_id (h : StopHandler) (oid : String)
    (hchange : dget? h.change oid = none)
    (hinv : invalidMem h oid = false) :
    get_id h (some oid) = (h, some oid) := by
  simp only [get_id]
  rw [hchange]
  simp [Option.getD_none, hinv]

theorem get_id_unregistered_returns_id_witness :
    get_id emptyHandler (some ("999998")) = (emptyHandler, some ("999998")) :=
  get_id_unregistered_returns_id emptyHandler ("999998") (by decide) (by decide)

/-- A concrete stake with no usable position, registered as invalid. -/
def stake123401 : ZTMStop := ⟨("123401"), ("01"), none, none, ("0")⟩

/-- A registry whose invalid set holds the id `"123401"`. -/
def handlerC2 : StopHandler :=
  { emptyHandler with invalid := [(("123401"), stake123401)] }

/-- C2: the `elif valid_id in self.invalid` branch of `get_id` is dead —
it is subsumed by the preceding `if valid_id is None or valid_id in
self.invalid` test — so resolving an id whose alias-map/identity result
lies in the invalid set returns `none` without ever adding the id to
`used_invalid`, and the diagnostic artifact's "consumed" list stays
empty; in general `get_id` never changes the handler state at all. -/
theorem get_id_never_records_used_invalid :
    (get_id handlerC2 (some ("123401"))).2 = none ∧
    (get_id handlerC2 (some ("123401"))).1.used_invalid = [] ∧
    (missingStopsReport (get_id handlerC2 (some ("123401"))).1).1 = [] ∧
    ∀ (h : StopHandler) (oid : Option String), (get_id h oid).1 = h := by
  refine ⟨by decide, by decide, by decide, ?_⟩
  intro h oid
  cases oid with
  | none => rfl
  | some o =>
    simp only [get_id]
    cases hv : (dget? h.change o).getD (some o) with
    | none => rfl
    | some v =>
      by_cases hb : invalidMem h v <;> simp [hb]

/-- C8: in every registry state, `get_id` applies the alias map at most
once — the result is `none`, the input id itself (when the id is not an
alias key), or the alias map's image of the input id, never a
further-chained target — and a returned id is never a member of the
invalid set. -/
theorem get_id_one_hop_never_invalid (h : StopHandler) (oid : String) :
    ((get_id h (some oid)).2 = none ∨
     ((get_id h (some oid)).2 = some oid ∧ dget? h.change oid = none) ∨
     dget? h.change oid = some (get_id h (some oid)).2) ∧
    (∀ v, (get_id h (some oid)).2 = some v → invalidMem h v = false) := by
  simp only [get_id]
  cases hc : dget? h.change oid with
  | none =>
    simp only [hc, Option.getD_none]
    by_cases hb : invalidMem h oid
    · simp [hb]
    · simp [hb]
  | some w =>
    simp only [hc, Option.getD_some]
    cases w with
    | none => simp
    | some v =>
      by_cases hb : invalidMem h v
      · simp [hb]
      · simp [hb]

/-- An alias map sending `"aaaa01"` to `"aaaa02"`. -/
def handlerC8 : StopHandler :=
  { emptyHandler with change := [(("aaaa01"), some ("aaaa02"))] }

theorem get_id_one_hop_never_invalid_witness :
    ((get_id handlerC8 (some ("aaaa01"))).2 = none ∨
     ((get_id handlerC8 (some ("aaaa01"))).2 = some ("aaaa01") ∧
       dget? handlerC8.change ("aaaa01") = none) ∨
     dget? handlerC8.change ("aaaa01") = some (get_id handlerC8 (some ("aaaa01"))).2) ∧
    (∀ v, (get_id handlerC8 (some ("aaaa01"))).2 = some v →
      invalidMem handlerC8 v = false) :=
  get_id_one_hop_never_invalid handlerC8 ("aaaa01")

/-- A railway stake with no usable position. -/
def stakeRailNoPos : ZTMStop := ⟨("190101"), ("01"), none, none, ("0")⟩

/-- C3: an allowlisted railway group absent from the rail-platforms gist
whose non-empty stake list has no stake with a defined position is NOT
suppressed: `avg_position` returns `(0, 0)` — the sums over the empty
coordinate generators divided by `len(stops)` — instead of `None`, so
`_load_railway_group` exports the station at position (0, 0) and aliases
every stake to the group id rather than to the "no valid target"
sentinel.  Only an empty stake list takes the suppression branch. -/
theorem railway_group_without_positions_not_suppressed :
    avg_position [stakeRailNoPos] = .ok (some (0, 0)) ∧
    _load_railway_group [("1901")] emptyHandler ("1901") ("Foo") [stakeRailNoPos] =
      .ok { emptyHandler with
              data := [(("1901"), railStationEntry none ("1901") ("Foo") 0 0)],
              change := [(("190101"), some ("1901"))] } := by
  have havg : avg_position [stakeRailNoPos] = .ok (some (0, 0)) := by
    simp [avg_position, pysum, stakeRailNoPos]
  refine ⟨havg, ?_⟩
  simp only [_load_railway_group, havg]
  simp [emptyHandler, dget?, changeAll, dset, stakeRailNoPos]

/-- A stake with the exact position (52, 21). -/
def stakeAt5221 : ZTMStop := ⟨("190201"), ("01"), some 52, some 21, ("0")⟩

/-- A sibling stake with undefined coordinates. -/
def stakeBeside : ZTMStop := ⟨("190202"), ("02"), none, none, ("0")⟩

/-- C4: `avg_position` sums the coordinates of the stakes with a defined
position but divides by `len(stops)`, the number of ALL stakes.  With one
stake at (52, 21) and one stake without coordinates, the station exported
by `_load_railway_group` sits at (26, 21/2) — not at (52, 21), the
arithmetic mean over exactly the stakes with defined coordinates that the
claim describes. -/
theorem avg_position_divides_by_total_count :
    avg_position [stakeAt5221, stakeBeside] = .ok (some (26, 21 / 2)) ∧
    avg_position [stakeAt5221, stakeBeside] ≠ .ok (some (52, 21)) ∧
    (_load_railway_group [("1902")] emptyHandler ("1902") ("Bar")
        [stakeAt5221, stakeBeside]).map
      (fun h => (dget? h.data ("1902")).map (fun d => (d.stop_lat, d.stop_lon))) =
      .ok (some (26, 21 / 2)) := by
  have havg : avg_position [stakeAt5221, stakeBeside] = .ok (some (26, 21 / 2)) := by
    simp [avg_position, pysum, stakeAt5221, stakeBeside]
    norm_num
  refine ⟨havg, ?_, ?_⟩
  · rw [havg]
    simp
  · simp only [_load_railway_group, havg]
    simp [emptyHandler, dget?, changeAll, dset, stakeAt5221, stakeBeside,
      railStationEntry, Except.map, sdGet]

/-- The mis-tagged Metro Młociny virtual stake, here placed at (1, 2). -/
def virtMlociny : ZTMStop := ⟨("605988"), ("88"), some 1, some 2, ("0")⟩

/-- A physical sibling co-located with the virtual stake. -/
def physColocated : ZTMStop := ⟨("605901"), ("01"), some 1, some 2, ("0")⟩

/-- A physical sibling matching the virtual stake's code character, at a
different position. -/
def physCodeMatch : ZTMStop := ⟨("605928"), ("28"), some 3, some 4, ("0")⟩

/-- C5 counterexample: for the virtual stake `"605988"` the hard-coded
special case fires first: although the physical sibling `"605901"` shares
the virtual stake's exact position, the matcher returns — and
`_load_normal_group` aliases to — the merely code-matched `"605928"`,
which sits at a different position. -/
theorem match_virtual_colocated_counterexample :
    _match_virtual virtMlociny [virtMlociny, physColocated, physCodeMatch] =
      some ("605928") ∧
    with_same_pos virtMlociny [virtMlociny, physColocated, physCodeMatch] =
      [("605901")] ∧
    physCodeMatch.lat ≠ virtMlociny.lat ∧
    dget? (_load_normal_group emptyHandler ("Metro")
        [virtMlociny, physColocated, physCodeMatch]).change ("605988") =
      some (some ("605928")) := by decide

/-- C5 (amended): except for the hard-coded special case — the virtual
stake id `"605988"` with `"605928"` among the code-matched physical
siblings — every virtual stake whose defined position exactly equals the
position of at least one physical sibling is matched to the first such
co-located physical sibling in iteration order, never to a merely
code-matched one. -/
theorem match_virtual_prefers_colocated (virt : ZTMStop) (stakes : List ZTMStop)
    (hspecial : ¬(virt.id = "605988" ∧
      (with_same_code virt stakes).contains ("605928") = true))
    (x : String) (hx : (with_same_pos virt stakes).head? = some x) :
    _match_virtual virt stakes = some x ∧
    ∃ i ∈ stakes, i.id = x ∧ charAt? i.code 0 ≠ some '8' ∧
      i.lat = virt.lat ∧ i.lon = virt.lon := by
  have hcond : (virt.id == ("605988") &&
      (with_same_code virt stakes).contains ("605928")) = false := by
    cases hb1 : virt.id == "605988" with
    | false => simp [hb1]
    | true =>
      cases hb2 : (with_same_code virt stakes).contains "605928" with
      | false => simp [hb1, hb2]
      | true => exact absurd ⟨by simpa using hb1, hb2⟩ hspecial
  have hpos : ∃ t, with_same_pos virt stakes = x :: t := by
    cases hp : with_same_pos virt stakes with
    | nil => rw [hp] at hx; simp at hx
    | cons y t =>
      rw [hp] at hx
      simp only [List.head?_cons, Option.some.injEq] at hx
      exact ⟨t, by rw [hx]⟩
  obtain ⟨t, hpos⟩ := hpos
  refine ⟨?_, ?_⟩
  · simp only [_match_virtual, hcond, Bool.false_eq_true, if_false, hpos]
  · have hxmem : x ∈ with_same_pos virt stakes := by
      rw [hpos]; exact List.mem_cons_self x t
    unfold with_same_pos at hxmem
    by_cases hvs : (virt.lat.isSome && virt.lon.isSome) = true
    · rw [if_pos hvs] at hxmem
      simp only [List.mem_map] at hxmem
      obtain ⟨i, hifil, hid⟩ := hxmem
      obtain ⟨himem, hpred⟩ := List.mem_filter.mp hifil
      simp only [Bool.and_eq_true, bne_iff_ne, beq_iff_eq] at hpred
      exact ⟨i, himem, hid, hpred.1.1, hpred.1.2, hpred.2⟩
    · rw [if_neg hvs] at hxmem
      simp at hxmem

/-- A virtual stake outside the special case, at (5, 6). -/
def virtPlain : ZTMStop := ⟨("100081"), ("81"), some 5, some 6, ("0")⟩

/-- A physical sibling of `virtPlain` at the same position. -/
def physPlain : ZTMStop := ⟨("100001"), ("01"), some 5, some 6, ("0")⟩

theorem match_virtual_prefers_colocated_witness :
    _match_virtual virtPlain [virtPlain, physPlain] = some ("100001") ∧
    ∃ i ∈ [virtPlain, physPlain], i.id = ("100001") ∧
      charAt? i.code 0 ≠ some '8' ∧
      i.lat = virtPlain.lat ∧ i.lon = virtPlain.lon :=
  match_virtual_prefers_colocated virtPlain [virtPlain, physPlain]
    (by decide) ("100001") (by decide)

theorem nodup_keys_mem_eq {α : Type} {m : List (String × α)}
    (hm : (m.map Prod.fst).Nodup) {k : String} {v w : α}
    (hv : (k, v) ∈ m) (hw : (k, w) ∈ m) : v = w := by
  induction m with
  | nil => simp at hv
  | cons p m ih =>
    simp only [List.map_cons, List.nodup_cons] at hm
    rcases List.mem_cons.mp hv with hv1 | hv2 <;>
      rcases List.mem_cons.mp hw with hw1 | hw2
    · exact (Prod.ext_iff.mp (hv1.trans hw1.symm)).2
    · exfalso
      apply hm.1
      rw [← hv1]
      have hmem := List.mem_map_of_mem Prod.fst hw2
      exact hmem
    · exfalso
      apply hm.1
      rw [← hw1]
      have hmem := List.mem_map_of_mem Prod.fst hv2
      exact hmem
    · exact ih hm.2 hv2 hw2

theorem fillZone_stop_id (h : StopHandler) (sid : String) (d : StopData) :
    (fillZone h sid d).stop_id = d.stop_id := by
  unfold fillZone; split <;> rfl

/-- C9: `export` writes a stop record to `stops.txt` if and only if its id
is in the usage set, or its parent-station field is in the usage set and
its location-type is not the hub value `"1"`; in particular a hub record
is included exactly when its own id was marked used. -/
theorem export_includes_iff (h : StopHandler)
    (hkeys : ∀ p ∈ h.data, (p.2).stop_id = p.1)
    (hnodup : (h.data.map Prod.fst).Nodup)
    (sid : String) (d : StopData) (hmem : (sid, d) ∈ h.data) :
    (fillZone h sid d ∈ exportRows h ↔
      (h.used.contains sid = true ∨
       (∃ p, d.parent_station = some p ∧ h.used.contains p = true ∧
         d.location_type ≠ some ("1")))) ∧
    (d.location_type = some ("1") →
      (fillZone h sid d ∈ exportRows h ↔ h.used.contains sid = true)) := by
  have hcond : exportCond h sid d = true ↔
      (h.used.contains sid = true ∨
       (∃ p, d.parent_station = some p ∧ h.used.contains p = true ∧
         d.location_type ≠ some ("1"))) := by
    unfold exportCond
    cases hp : d.parent_station with
    | none => simp [hp]
    | some p => simp [hp, Bool.and_eq_true, bne_iff_ne]
  have hmain : fillZone h sid d ∈ exportRows h ↔ exportCond h sid d = true := by
    constructor
    · intro hin
      unfold exportRows at hin
      simp only [List.mem_map] at hin
      obtain ⟨q, hqfil, hqeq⟩ := hin
      obtain ⟨hqmem, hqcond⟩ := List.mem_filter.mp hqfil
      have hids : q.2.stop_id = d.stop_id := by
        rw [← fillZone_stop_id h q.1 q.2, ← fillZone_stop_id h sid d, hqeq]
      have hq1 : q.1 = sid := by
        rw [← hkeys q hqmem, hids, hkeys (sid, d) hmem]
      have hq2 : q.2 = d := by
        refine nodup_keys_mem_eq hnodup ?_ hmem
        rw [← hq1]
        exact hqmem
      rw [hq1, hq2] at hqcond
      exact hqcond
    · intro hc
      unfold exportRows
      simp only [List.mem_map]
      exact ⟨(sid, d), List.mem_filter.mpr ⟨hmem, hc⟩, rfl⟩
  refine ⟨hmain.trans hcond, fun hloc => ?_⟩
  rw [hmain, hcond]
  constructor
  · rintro (hs | ⟨p, _, _, hp3⟩)
    · exact hs
    · exact absurd hloc hp3
  · exact Or.inl

/-- A used hub record. -/
def hubRecord : StopData :=
  { stop_id := ("4900")
    stop_name := ("Hub")
    stop_lat := 1
    stop_lon := 2
    wheelchair_boarding := ("0")
    location_type := some ("1")
    parent_station := some ("") }

/-- A registry holding one used hub record. -/
def handlerC9 : StopHandler :=
  { emptyHandler with data := [(("4900"), hubRecord)], used := [("4900")] }

theorem export_includes_iff_witness :
    (fillZone handlerC9 ("4900") hubRecord ∈ exportRows handlerC9 ↔
      (handlerC9.used.contains ("4900") = true ∨
       (∃ p, hubRecord.parent_station = some p ∧
         handlerC9.used.contains p = true ∧
         hubRecord.location_type ≠ some ("1")))) ∧
    (hubRecord.location_type = some ("1") →
      (fillZone handlerC9 ("4900") hubRecord ∈ exportRows handlerC9 ↔
        handlerC9.used.contains ("4900") = true)) :=
  export_includes_iff handlerC9 (by decide) (by decide) ("4900") hubRecord
    (by decide)

theorem foldl_names_eq {β : Type} (f : StopHandler → β → StopHandler)
    (hf : ∀ h x, (f h x).names = h.names) :
    ∀ (l : List β) (h : StopHandler), (l.foldl f h).names = h.names := by
  intro l
  induction l with
  | nil => intro h; rfl
  | cons x xs ih => intro h; rw [List.foldl_cons, ih, hf]

theorem changeAll_names (h : StopHandler) (l : List ZTMStop) (t : Option String) :
    (changeAll h l t).names = h.names := by
  unfold changeAll
  apply foldl_names_eq
  intro h i
  rfl

theorem load_normal_group_names (h : StopHandler) (gn : String)
    (stops : List ZTMStop) :
    (_load_normal_group h gn stops).names = h.names := by
  unfold _load_normal_group
  apply foldl_names_eq
  intro h stop
  dsimp only
  split
  · split <;> rfl
  · split <;> rfl

theorem railPlatformsFold_names (sd : RailPlatformRec) (gid gn : String) :
    ∀ (l : List (String × (ℚ × ℚ))) (h h' : StopHandler),
      railPlatformsFold sd gid gn h l = .ok h' → h'.names = h.names := by
  intro l
  induction l with
  | nil =>
    intro h h' he
    injection he with he
    rw [← he]
  | cons p rest ih =>
    intro h h' he
    obtain ⟨pid, pla, plo⟩ := p
    unfold railPlatformsFold at he
    split at he
    · cases he
    · have hn := ih _ h' he
      exact hn

theorem railStakesToPlatforms_names (sd : RailPlatformRec) (h : StopHandler)
    (vs : List ZTMStop) :
    (railStakesToPlatforms sd h vs).names = h.names := by
  unfold railStakesToPlatforms
  apply foldl_names_eq
  intro h stop
  dsimp only
  split <;> rfl

theorem load_railway_group_names (active : List String) (h : StopHandler)
    (gid gn : String) (vs : List ZTMStop) (h' : StopHandler)
    (he : _load_railway_group active h gid gn vs = .ok h') :
    h'.names = h.names := by
  unfold _load_railway_group at he
  split at he
  · injection he with he
    rw [← he, changeAll_names]
  · split at he
    · split at he
      · cases he
      · injection he with he
        rw [← he, changeAll_names]
      · injection he with he
        rw [← he, changeAll_names]
    · split at he
      · injection he with he
        rw [← he, changeAll_names]
      · dsimp only at he
        split at he
        · cases he
        · injection he with he
          rename_i hmid heq
          have hn1 := railPlatformsFold_names _ _ _ _ _ _ heq
          rw [← he, railStakesToPlatforms_names]
          exact hn1

theorem resolveGroupName_spec (h : StopHandler) (g : ZTMStopGroup) :
    (resolveGroupName h g).2.id = g.id ∧
    (resolveGroupName h g).2.town_code = g.town_code ∧
    (g.town = "Kampinoski Pn" → (resolveGroupName h g).2.town = "Kampinoski PN") ∧
    (g.town ≠ "Kampinoski Pn" → (resolveGroupName h g).2.town = g.town) ∧
    dget? (resolveGroupName h g).1.names g.id = some (resolveGroupName h g).2.name ∧
    (resolveGroupName h g).1.missing_stops = h.missing_stops := by
  unfold resolveGroupName
  by_cases ht : (g.town == "Kampinoski Pn") = true
  · have ht' : g.town = "Kampinoski Pn" := by simpa using ht
    rw [if_pos ht]
    dsimp only
    split
    next fixed hn =>
      split
      next hfix =>
        exact ⟨rfl, rfl, fun _ => rfl, fun hc => absurd ht' hc, by simp [hn], rfl⟩
      next hfix =>
        split
        next hshould =>
          exact ⟨rfl, rfl, fun _ => rfl, fun hc => absurd ht' hc,
            by simp [dget?_dset_self], rfl⟩
        next hshould =>
          exact ⟨rfl, rfl, fun _ => rfl, fun hc => absurd ht' hc,
            by simp [dget?_dset_self], rfl⟩
    next hn =>
      split
      next hshould =>
        exact ⟨rfl, rfl, fun _ => rfl, fun hc => absurd ht' hc,
          by simp [dget?_dset_self], rfl⟩
      next hshould =>
        exact ⟨rfl, rfl, fun _ => rfl, fun hc => absurd ht' hc,
          by simp [dget?_dset_self], rfl⟩
  · have ht' : ¬ g.town = "Kampinoski Pn" := by simpa using ht
    rw [if_neg ht]
    dsimp only
    split
    next fixed hn =>
      split
      next hfix =>
        exact ⟨rfl, rfl, fun hc => absurd hc ht', fun _ => rfl, by simp [hn], rfl⟩
      next hfix =>
        split
        next hshould =>
          exact ⟨rfl, rfl, fun hc => absurd hc ht', fun _ => rfl,
            by simp [dget?_dset_self], rfl⟩
        next hshould =>
          exact ⟨rfl, rfl, fun hc => absurd hc ht', fun _ => rfl,
            by simp [dget?_dset_self], rfl⟩
    next hn =>
      split
      next hshould =>
        exact ⟨rfl, rfl, fun hc => absurd hc ht', fun _ => rfl,
          by simp [dget?_dset_self], rfl⟩
      next hshould =>
        exact ⟨rfl, rfl, fun hc => absurd hc ht', fun _ => rfl,
          by simp [dget?_dset_self], rfl⟩

/-- C10: `load_group` mutates its arguments in place — modelled by the
returned group and stake list.  The passed group comes back with its
`name` overwritten by the resolved name (which `load_group` also records
in the handler's `names` map under the group id), with its `town`
rewritten to `"Kampinoski PN"` exactly when it was the malformed label
`"Kampinoski Pn"`, and with `id` and `town_code` untouched; the passed
stake list comes back with fallback coordinates from the missing-stops
gist written into its position-less elements. -/
theorem load_group_mutates_arguments (active : List String) (h : StopHandler)
    (g : ZTMStopGroup) (stops : List ZTMStop) :
    (load_group active h g stops).2.1.id = g.id ∧
    (load_group active h g stops).2.1.town_code = g.town_code ∧
    (g.town = "Kampinoski Pn" →
      (load_group active h g stops).2.1.town = "Kampinoski PN") ∧
    (g.town ≠ "Kampinoski Pn" →
      (load_group active h g stops).2.1.town = g.town) ∧
    (∀ h', (load_group active h g stops).1 = .ok h' →
      dget? h'.names g.id = some (load_group active h g stops).2.1.name) ∧
    (load_group active h g stops).2.2 =
      _find_missing_positions h.missing_stops stops ∧
    (∀ s la lo, (s.lat.isNone ∨ s.lon.isNone) →
      dget? h.missing_stops s.id = some (la, lo) →
      (fill_missing h.missing_stops s).lat = some la ∧
      (fill_missing h.missing_stops s).lon = some lo) := by
  obtain ⟨hid, htc, htown1, htown2, hnames, hmiss⟩ := resolveGroupName_spec h g
  have hfill : ∀ (s : ZTMStop) (la lo : ℚ), (s.lat.isNone ∨ s.lon.isNone) →
      dget? h.missing_stops s.id = some (la, lo) →
      (fill_missing h.missing_stops s).lat = some la ∧
      (fill_missing h.missing_stops s).lon = some lo := by
    intro s la lo hnone hsome
    unfold fill_missing
    have hb : (s.lat.isNone || s.lon.isNone) = true := by
      rcases hnone with h1 | h1 <;> simp [h1]
    rw [if_pos hb, hsome]
    exact ⟨rfl, rfl⟩
  unfold load_group
  dsimp only
  split
  · refine ⟨hid, htc, htown1, htown2, ?_, ?_, hfill⟩
    · intro h' he
      have hn := load_railway_group_names _ _ _ _ _ _ he
      rw [hn]
      exact hnames
    · rw [hmiss]
  · refine ⟨hid, htc, htown1, htown2, ?_, ?_, hfill⟩
    · intro h' he
      injection he with he
      rw [← he, load_normal_group_names]
      exact hnames
    · rw [hmiss]

/-- A registry whose missing-stops gist covers the stake `"123402"`. -/
def handlerC10 : StopHandler :=
  { emptyHandler with missing_stops := [(("123402"), (3, 4))] }

/-- A group with the malformed locality label. -/
def groupC10 : ZTMStopGroup := ⟨("1234"), ("Dworzec"), ("Kampinoski Pn"), ("05")⟩

/-- A stake without coordinates, covered by the gist. -/
def stakeC10 : ZTMStop := ⟨("123402"), ("02"), none, none, ("0")⟩

theorem load_group_mutates_arguments_witness :
    (load_group [] handlerC10 groupC10 [stakeC10]).2.1.town = "Kampinoski PN" ∧
    ((fill_missing handlerC10.missing_stops stakeC10).lat = some 3 ∧
     (fill_missing handlerC10.missing_stops stakeC10).lon = some 4) :=
  ⟨(load_group_mutates_arguments [] handlerC10 groupC10 [stakeC10]).2.2.1 rfl,
   (load_group_mutates_arguments [] handlerC10 groupC10 [stakeC10]).2.2.2.2.2.2
     stakeC10 3 4 (Or.inl rfl) rfl⟩

end WarsawGTFS
